import Mathlib

/-!
Shallow embedding of the CockroachDB subscription store
(src/pkg/rid/cockroach/subscriptions.go) and verification of its
natural-language specification.

Modelling conventions:
- The backing store is a list of stored rows (`Subscription`), in the schema
  column order: id, owner, url, notification_index, cells, starts_at, ends_at,
  updated_at.  Timestamps are modelled as `Int`; `updated_at` doubles as the
  version token, exactly as in the schema.
- Cell identifiers are modelled as `Int`, the store-side representation after
  the Go code's `int64(cell)` conversion (the conversion is applied uniformly
  to both stored arrays and query arguments, so overlap and membership
  predicates are unaffected by it).
- Each SQL statement is translated into a pure function on the row list.  An
  operation that both mutates and returns rows yields a pair
  `(result, new store state)`.  The `Nat` component returned by the search
  operations counts the statements actually sent to the backing store on that
  call (the Go code returns before calling `process` when the cell set is
  empty).
- Nullable columns (`starts_at`, `ends_at`) are `Option Int`; the SQL
  comparison `ends_at >= now` is false on NULL, which `activeAt` mirrors.
-/

/-- A stored subscription row, mirroring the `subscriptions` relation and the
`ridmodels.Subscription` fields scanned in `process`:
id, owner, url, notification_index, cells, starts_at, ends_at, updated_at. -/
structure Subscription where
  id : String
  owner : String
  url : String
  notificationIndex : Int
  cells : List Int
  startTime : Option Int
  endTime : Option Int
  updatedAt : Int
deriving DecidableEq, Repr

/-- The caller-side subscription passed to Insert/Update/Delete: same fields,
but the version is the optional concurrency token (`Version.Empty()` is
`none`; `Version.ToTimestamp()` is the wrapped timestamp). -/
structure SubscriptionReq where
  id : String
  owner : String
  url : String
  notificationIndex : Int
  cells : List Int
  startTime : Option Int
  endTime : Option Int
  version : Option Int
deriving DecidableEq, Repr

/-- Errors surfaced by the store, one constructor per distinct error source in
the Go file:
- `badRequest` is `dsserr.BadRequest` (empty cell set on search);
- `noRows` is `sql.ErrNoRows` from `processOne` (the not-found signal);
- `invariantViolation n` is the `fmt.Errorf("query returned %d subscriptions")`
  error from `processOne` when a single-row query returns `n > 1` rows;
- `validation c` is the error returned by the cell-validation collaborator
  (`geo.ValidateCell`) for an illegal cell `c`;
- `notImplemented` — Modelled from the spec: the error value built by
  `dsserr.Internal("not yet implemented")` in `UpdateSubscription`; the
  `pkg/errors` taxonomy is not under src/, and the spec classifies this stub
  signal as NotImplemented. -/
inductive StoreError where
  | badRequest (msg : String)
  | noRows
  | invariantViolation (n : Nat)
  | validation (cell : Int)
  | notImplemented (msg : String)
deriving DecidableEq, Repr

/-- SQL array-overlap predicate `a && b`: true when the two arrays share at
least one element. -/
def cellsOverlap (a b : List Int) : Bool :=
  a.any (fun c => b.contains c)

/-- The SQL filter `ends_at >= now`: false when `ends_at` is NULL (SQL
three-valued comparison never matches NULL). -/
def activeAt (now : Int) (r : Subscription) : Bool :=
  match r.endTime with
  | some e => now ≤ e
  | none => false

/-- processOne: a query expected to return exactly one subscription.  More
than one row is an internal invariant violation, zero rows is
`sql.ErrNoRows`, otherwise the single row is returned. -/
def processOne (rows : List Subscription) : Except StoreError Subscription :=
  if rows.length > 1 then
    .error (.invariantViolation rows.length)
  else
    match rows with
    | [] => .error .noRows
    | r :: _ => .ok r

/-- The row filter of `UpdateNotificationIdxsInCells` and
`SearchSubscriptions`: `cells && $1 AND ends_at >= $2`. -/
def overlapActive (cells : List Int) (now : Int) (r : Subscription) : Bool :=
  cellsOverlap r.cells cells && activeAt now r

/-- The per-row effect of `SET notification_index = notification_index + 1`. -/
def bumpIndex (r : Subscription) : Subscription :=
  { r with notificationIndex := r.notificationIndex + 1 }

/-- UpdateNotificationIdxsInCells: `UPDATE subscriptions SET
notification_index = notification_index + 1 WHERE cells && $1 AND
ends_at >= $2 RETURNING *`.  Returns the updated rows and the new store
state. -/
def updateNotificationIdxsInCells (cells : List Int) (now : Int)
    (db : List Subscription) : List Subscription × List Subscription :=
  ((db.filter (overlapActive cells now)).map bumpIndex,
   db.map (fun r => if overlapActive cells now r then bumpIndex r else r))

/-- SearchSubscriptions: rejects an empty cell set with
`dsserr.BadRequest("no location provided")` before issuing any statement,
otherwise runs `SELECT * FROM subscriptions WHERE cells && $1 AND
ends_at >= $2`.  The `Nat` counts statements issued to the store. -/
def searchSubscriptions (cells : List Int) (now : Int)
    (db : List Subscription) : Except StoreError (List Subscription) × Nat :=
  if cells.isEmpty then
    (.error (.badRequest "no location provided"), 0)
  else
    (.ok (db.filter (overlapActive cells now)), 1)

/-- SearchSubscriptionsByOwner: same as `searchSubscriptions` with the extra
conjunct `subscriptions.owner = $2`. -/
def searchSubscriptionsByOwner (cells : List Int) (owner : String) (now : Int)
    (db : List Subscription) : Except StoreError (List Subscription) × Nat :=
  if cells.isEmpty then
    (.error (.badRequest "no location provided"), 0)
  else
    (.ok (db.filter (fun r =>
        cellsOverlap r.cells cells && (r.owner == owner) && activeAt now r)), 1)

/-- GetSubscription: `SELECT * FROM subscriptions WHERE id = $1`, processed
as a single-row query. -/
def getSubscription (id : String) (db : List Subscription) :
    Except StoreError Subscription :=
  processOne (db.filter (fun r => r.id == id))

/-- UpdateSubscription: the plain update path, stubbed out — returns
`dsserr.Internal("not yet implemented")` without touching the store. -/
def updateSubscription (s : SubscriptionReq) (db : List Subscription) :
    Except StoreError Subscription × List Subscription :=
  (.error (.notImplemented "not yet implemented"), db)

/-- The row written by InsertSubscription's INSERT and UPDATE statements:
every column from the request, with `updated_at = transaction_timestamp()`. -/
def writtenRow (s : SubscriptionReq) (now : Int) : Subscription :=
  { id := s.id
    owner := s.owner
    url := s.url
    notificationIndex := s.notificationIndex
    cells := s.cells
    startTime := s.startTime
    endTime := s.endTime
    updatedAt := now }

/-- The validation loop of InsertSubscription: `geo.ValidateCell` on each cell
in order, returning the first failing cell.  `geo.ValidateCell` itself is an
external collaborator abstracted as the predicate `validCell`. -/
def firstInvalidCell (validCell : Int → Bool) : List Int → Option Int
  | [] => none
  | c :: cs => if validCell c then firstInvalidCell validCell cs else some c

/-- The CAS row filter of InsertSubscription's UPDATE statement:
`WHERE id = $1 AND updated_at = $8`. -/
def casMatch (id : String) (v : Int) (r : Subscription) : Bool :=
  r.id == id && r.updatedAt == v

/-- InsertSubscription: validates every cell first (returning the
collaborator's error before any write); then, when the version is empty,
INSERTs a new row (RETURNING it), and when the version is present, runs the
CAS UPDATE `SET (...) = ($1..$7, transaction_timestamp()) WHERE id = $1 AND
updated_at = $8 RETURNING *`, processed as a single-row query.  `now` is the
write's `transaction_timestamp()`. -/
def insertSubscription (validCell : Int → Bool) (s : SubscriptionReq)
    (now : Int) (db : List Subscription) :
    Except StoreError Subscription × List Subscription :=
  match firstInvalidCell validCell s.cells with
  | some c => (.error (.validation c), db)
  | none =>
    match s.version with
    | none =>
        (.ok (writtenRow s now), db ++ [writtenRow s now])
    | some v =>
        (processOne ((db.filter (casMatch s.id v)).map (fun _ => writtenRow s now)),
         db.map (fun r => if casMatch s.id v r then writtenRow s now else r))

/-- The row filter of DeleteSubscription:
`WHERE id = $1 AND owner = $2 AND updated_at = $3`. -/
def delMatch (id : String) (owner : String) (v : Int) (r : Subscription) : Bool :=
  r.id == id && r.owner == owner && r.updatedAt == v

/-- DeleteSubscription: `DELETE FROM subscriptions WHERE id = $1 AND
owner = $2 AND updated_at = $3 RETURNING *`, processed as a single-row
query; the new store state drops every matching row. -/
def deleteSubscription (id : String) (owner : String) (v : Int)
    (db : List Subscription) :
    Except StoreError Subscription × List Subscription :=
  (processOne (db.filter (delMatch id owner v)),
   db.filter (fun r => !delMatch id owner v r))

/-- MaxSubscriptionCountInCellsByOwner: unnests the cells of the owner's
active subscriptions into individual cell occurrences, keeps those in the
query array (`cell_id = ANY($3)`), groups by cell id, counts each group, and
returns the maximum count, defaulting to 0 (`IFNULL(MAX(..), 0)`). -/
def maxSubscriptionCountInCellsByOwner (cells : List Int) (owner : String)
    (now : Int) (db : List Subscription) : Nat :=
  let flat := (db.filter (fun r => (r.owner == owner) && activeAt now r)).flatMap
    (fun r => r.cells)
  let restricted := flat.filter (fun c => cells.contains c)
  ((restricted.dedup).map (fun c => restricted.count c)).foldl max 0

/-! ### Bridging lemmas between the executable predicates and their
propositional reading. -/

lemma cellsOverlap_iff (a b : List Int) :
    cellsOverlap a b = true ↔ ∃ c, c ∈ a ∧ c ∈ b := by
  simp [cellsOverlap, List.any_eq_true, List.elem_iff]

lemma overlapActive_iff (cells : List Int) (now : Int) (r : Subscription) :
    overlapActive cells now r = true ↔
      (∃ c, c ∈ r.cells ∧ c ∈ cells) ∧ activeAt now r = true := by
  simp [overlapActive, Bool.and_eq_true, cellsOverlap_iff]

lemma delMatch_iff (id owner : String) (v : Int) (r : Subscription) :
    delMatch id owner v r = true ↔
      r.id = id ∧ r.owner = owner ∧ r.updatedAt = v := by
  simp [delMatch, Bool.and_eq_true, and_assoc]

lemma casMatch_iff (id : String) (v : Int) (r : Subscription) :
    casMatch id v r = true ↔ r.id = id ∧ r.updatedAt = v := by
  simp [casMatch, Bool.and_eq_true]

/-! ### Concrete fixture rows for the witnesses. -/

/-- Fixture: an active subscription of owner alice covering cells 1–3. -/
def subA : Subscription :=
  { id := "A", owner := "alice", url := "https://a.example",
    notificationIndex := 0, cells := [1, 2, 3],
    startTime := some 0, endTime := some 10, updatedAt := 1 }

/-- Fixture: an active subscription of owner bob covering cells 4–5. -/
def subB : Subscription :=
  { id := "B", owner := "bob", url := "https://b.example",
    notificationIndex := 4, cells := [4, 5],
    startTime := some 0, endTime := some 10, updatedAt := 2 }

/-- C6: searching with an empty cell set returns the BadRequest error — never
a success result — and issues zero statements to the backing store, for both
search operations, regardless of store contents, clock, or owner. -/
theorem c6_empty_search_bad_request (owner : String) (now : Int)
    (db : List Subscription) :
    searchSubscriptions [] now db
      = (.error (.badRequest "no location provided"), 0) ∧
    searchSubscriptionsByOwner [] owner now db
      = (.error (.badRequest "no location provided"), 0) :=
  ⟨rfl, rfl⟩

/-- C10: for every input, the plain update operation is rejected outright
with the stubbed not-implemented error and the store state is unchanged. -/
theorem c10_update_not_implemented (s : SubscriptionReq)
    (db : List Subscription) :
    updateSubscription s db
      = (.error (.notImplemented "not yet implemented"), db) :=
  rfl

/-- C5: GetSubscription returns the unique matching row when exactly one row
carries the id, the not-found error when none does, and the internal
invariant-violation error (never an arbitrary row) when several do. -/
theorem c5_get_subscription_spec (id : String) (db : List Subscription) :
    (∀ r, db.filter (fun x => x.id == id) = [r] →
      getSubscription id db = .ok r) ∧
    (db.filter (fun x => x.id == id) = [] →
      getSubscription id db = .error .noRows) ∧
    (∀ n, (db.filter (fun x => x.id == id)).length = n → 1 < n →
      getSubscription id db = .error (.invariantViolation n)) := by
  refine ⟨?_, ?_, ?_⟩
  · intro r h
    simp [getSubscription, h, processOne]
  · intro h
    simp [getSubscription, h, processOne]
  · intro n h hn
    subst h
    simp [getSubscription, processOne, hn]

/-- C5 witness: the three outcomes at concrete stores. -/
theorem c5_get_subscription_spec_witness :
    getSubscription "A" [subA, subB] = .ok subA ∧
    getSubscription "C" [subA, subB] = .error .noRows ∧
    getSubscription "A" [subA, subA] = .error (.invariantViolation 2) :=
  ⟨(c5_get_subscription_spec "A" [subA, subB]).1 subA rfl,
   (c5_get_subscription_spec "C" [subA, subB]).2.1 rfl,
   (c5_get_subscription_spec "A" [subA, subA]).2.2 2 rfl (by decide)⟩

/-- C2: for a non-empty query cell set, SearchSubscriptions succeeds with one
statement and returns exactly the stored rows that are active and share at
least one cell with the query (overlap, not containment: expired or
non-overlapping rows are excluded), and SearchSubscriptionsByOwner returns
exactly that same result further restricted to rows of the given owner. -/
theorem c2_search_overlap_spec (cells : List Int) (owner : String) (now : Int)
    (db : List Subscription) (hne : cells ≠ []) :
    searchSubscriptions cells now db
      = (.ok (db.filter (overlapActive cells now)), 1) ∧
    (∀ r, r ∈ db.filter (overlapActive cells now) ↔
      r ∈ db ∧ (∃ c, c ∈ r.cells ∧ c ∈ cells) ∧ activeAt now r = true) ∧
    searchSubscriptionsByOwner cells owner now db
      = (.ok ((db.filter (overlapActive cells now)).filter
          (fun r => r.owner == owner)), 1) := by
  have hne' : cells.isEmpty = false := by
    cases cells with
    | nil => exact absurd rfl hne
    | cons c cs => rfl
  refine ⟨?_, ?_, ?_⟩
  · simp [searchSubscriptions, hne']
  · intro r
    simp [List.mem_filter, overlapActive_iff]
  · simp only [searchSubscriptionsByOwner, hne', Bool.false_eq_true,
      if_false, List.filter_filter, Prod.mk.injEq, and_true]
    congr 1
    apply List.filter_congr
    intro r _
    cases h1 : cellsOverlap r.cells cells <;>
      cases h2 : (r.owner == owner) <;>
      cases h3 : activeAt now r <;>
      simp [overlapActive, h1, h2, h3]

/-- C2 witness: cells 3 and 4 match both fixture rows (a single shared cell
each); the owner-restricted search keeps only alice's row. -/
theorem c2_search_overlap_spec_witness :
    searchSubscriptions [3, 4] 0 [subA, subB] = (.ok [subA, subB], 1) ∧
    searchSubscriptionsByOwner [3, 4] "alice" 0 [subA, subB]
      = (.ok [subA], 1) :=
  ⟨by
    rw [(c2_search_overlap_spec [3, 4] "alice" 0 [subA, subB] (by decide)).1]
    rfl,
   by
    rw [(c2_search_overlap_spec [3, 4] "alice" 0 [subA, subB] (by decide)).2.2]
    rfl⟩

/-- C3: DeleteSubscription removes a stored row exactly when the row matches
the given id, owner, and version token simultaneously; with exactly one such
row it returns that row's prior state; with none (wrong id, owner mismatch,
or stale version) it returns the not-found error and deletes nothing. -/
theorem c3_delete_spec (id owner : String) (v : Int) (db : List Subscription) :
    (∀ r, r ∈ (deleteSubscription id owner v db).2 ↔
      r ∈ db ∧ ¬(r.id = id ∧ r.owner = owner ∧ r.updatedAt = v)) ∧
    (∀ r, db.filter (delMatch id owner v) = [r] →
      (deleteSubscription id owner v db).1 = .ok r) ∧
    (db.filter (delMatch id owner v) = [] →
      deleteSubscription id owner v db = (.error .noRows, db)) := by
  refine ⟨?_, ?_, ?_⟩
  · intro r
    simp [deleteSubscription, List.mem_filter, ← delMatch_iff]
  · intro r h
    simp [deleteSubscription, h, processOne]
  · intro h
    have h2 : db.filter (fun r => !delMatch id owner v r) = db := by
      apply List.filter_eq_self.mpr
      intro a ha
      have h3 := (List.filter_eq_nil_iff.mp h) a ha
      simp_all
    simp [deleteSubscription, h, h2, processOne]

/-- C3 witness: deleting with the matching triple succeeds and removes the
row; a wrong owner with the correct version deletes nothing and reports
not-found. -/
theorem c3_delete_spec_witness :
    (deleteSubscription "A" "alice" 1 [subA, subB]).1 = .ok subA ∧
    (deleteSubscription "A" "alice" 1 [subA, subB]).2 = [subB] ∧
    deleteSubscription "A" "bob" 1 [subA, subB]
      = (.error .noRows, [subA, subB]) :=
  ⟨(c3_delete_spec "A" "alice" 1 [subA, subB]).2.1 subA rfl,
   rfl,
   (c3_delete_spec "A" "bob" 1 [subA, subB]).2.2 rfl⟩

lemma overlapActive_bumpIndex (cells : List Int) (now : Int)
    (r : Subscription) :
    overlapActive cells now (bumpIndex r) = overlapActive cells now r := rfl

/-- C1: AdvanceNotificationIndex increments by exactly 1 the index of every
stored subscription that is active (endTime at or after now) and shares a
cell with the given set — leaving every other field of it and every other row
entirely unchanged — returns exactly the updated rows, and a second identical
call increments a matching row again, for 2 in total. -/
theorem c1_advance_spec (cells : List Int) (now : Int)
    (db : List Subscription) :
    List.Forall₂ (fun r r' =>
        (((∃ c, c ∈ r.cells ∧ c ∈ cells) ∧ activeAt now r = true) →
          r'.notificationIndex = r.notificationIndex + 1 ∧
          r'.id = r.id ∧ r'.owner = r.owner ∧ r'.url = r.url ∧
          r'.cells = r.cells ∧ r'.startTime = r.startTime ∧
          r'.endTime = r.endTime ∧ r'.updatedAt = r.updatedAt) ∧
        (¬((∃ c, c ∈ r.cells ∧ c ∈ cells) ∧ activeAt now r = true) →
          r' = r))
      db (updateNotificationIdxsInCells cells now db).2 ∧
    (∀ r', r' ∈ (updateNotificationIdxsInCells cells now db).1 ↔
      ∃ r, r ∈ db ∧
        ((∃ c, c ∈ r.cells ∧ c ∈ cells) ∧ activeAt now r = true) ∧
        r' = bumpIndex r) ∧
    List.Forall₂ (fun r r'' =>
        ((∃ c, c ∈ r.cells ∧ c ∈ cells) ∧ activeAt now r = true) →
          r''.notificationIndex = r.notificationIndex + 2)
      db (updateNotificationIdxsInCells cells now
            (updateNotificationIdxsInCells cells now db).2).2 := by
  refine ⟨?_, ?_, ?_⟩
  · show List.Forall₂ _ db ((db.map (fun r =>
      if overlapActive cells now r then bumpIndex r else r)))
    rw [List.forall₂_map_right_iff, List.forall₂_same]
    intro r hr
    by_cases h : overlapActive cells now r
    · rw [overlapActive_iff] at h
      simp only [if_pos ((overlapActive_iff cells now r).mpr h)]
      exact ⟨fun _ => ⟨rfl, rfl, rfl, rfl, rfl, rfl, rfl, rfl⟩,
        fun hc => absurd h hc⟩
    · rw [overlapActive_iff] at h
      simp only [if_neg (by
        intro hb
        exact h ((overlapActive_iff cells now r).mp hb))]
      exact ⟨fun hc => absurd hc h, fun _ => by trivial⟩
  · intro r'
    show r' ∈ (db.filter (overlapActive cells now)).map bumpIndex ↔ _
    simp only [List.mem_map, List.mem_filter, overlapActive_iff]
    constructor
    · rintro ⟨r, ⟨hr, hm⟩, heq⟩
      exact ⟨r, hr, hm, heq.symm⟩
    · rintro ⟨r, hr, hm, heq⟩
      exact ⟨r, ⟨hr, hm⟩, heq.symm⟩
  · show List.Forall₂ _ db (((db.map (fun r =>
      if overlapActive cells now r then bumpIndex r else r)).map (fun r =>
      if overlapActive cells now r then bumpIndex r else r)))
    rw [List.map_map, List.forall₂_map_right_iff, List.forall₂_same]
    intro r hr hm
    have h : overlapActive cells now r = true :=
      (overlapActive_iff cells now r).mpr hm
    have h2 : overlapActive cells now (bumpIndex r) = true := by
      rw [overlapActive_bumpIndex]
      exact h
    simp only [Function.comp]
    rw [if_pos h, if_pos h2]
    simp [bumpIndex]
    omega

/-- C1 witness: in the fixture store, cell 3 matches alice's subscription
only; its bumped row is among the returned rows. -/
theorem c1_advance_spec_witness :
    bumpIndex subA ∈ (updateNotificationIdxsInCells [3] 0 [subA, subB]).1 :=
  ((c1_advance_spec [3] 0 [subA, subB]).2.1 (bumpIndex subA)).mpr
    ⟨subA, by decide, ⟨⟨3, by decide, by decide⟩, by decide⟩, rfl⟩

lemma firstInvalidCell_of_bad (validCell : Int → Bool) (l : List Int)
    (c : Int) (hc : c ∈ l) (hbad : validCell c = false) :
    ∃ d, firstInvalidCell validCell l = some d ∧ d ∈ l ∧
      validCell d = false := by
  induction l with
  | nil => cases hc
  | cons a as ih =>
    by_cases ha : validCell a = true
    · have hc' : c ∈ as := by
        cases List.mem_cons.mp hc with
        | inl h =>
          subst h
          rw [ha] at hbad
          cases hbad
        | inr h => exact h
      obtain ⟨d, hd, hdm, hdb⟩ := ih hc'
      exact ⟨d, by simp [firstInvalidCell, ha, hd],
        List.mem_cons_of_mem _ hdm, hdb⟩
    · refine ⟨a, by simp [firstInvalidCell, ha], List.mem_cons_self a as, ?_⟩
      simpa using ha

lemma firstInvalidCell_none (validCell : Int → Bool) (l : List Int)
    (h : ∀ c ∈ l, validCell c = true) :
    firstInvalidCell validCell l = none := by
  induction l with
  | nil => rfl
  | cons a as ih =>
    simp only [firstInvalidCell, h a (List.mem_cons_self a as), if_true]
    exact ih (fun c hc => h c (List.mem_cons_of_mem a hc))

/-- C7: InsertSubscription checks the cells with the validation collaborator
before issuing any statement: when some cell is invalid, it returns the
collaborator's validation error for an invalid cell of the request and the
store state is unchanged — no write happens on either branch.  (The spec
additionally states the precondition that the request's version is empty;
the validation check runs before the version branch either way.) -/
theorem c7_insert_validation_first (validCell : Int → Bool)
    (s : SubscriptionReq) (now : Int) (db : List Subscription) (c : Int)
    (hc : c ∈ s.cells) (hbad : validCell c = false) :
    ∃ d, d ∈ s.cells ∧ validCell d = false ∧
      insertSubscription validCell s now db = (.error (.validation d), db) := by
  obtain ⟨d, hd, hdm, hdb⟩ :=
    firstInvalidCell_of_bad validCell s.cells c hc hbad
  exact ⟨d, hdm, hdb, by simp [insertSubscription, hd]⟩

/-- Fixture: an insert request (empty version) carrying cell 42, invalid
under the witness validator that accepts only cells below 10. -/
def reqBadCell : SubscriptionReq :=
  { id := "N", owner := "alice", url := "https://n.example",
    notificationIndex := 0, cells := [1, 42],
    startTime := some 0, endTime := some 10, version := none }

/-- C7 witness: inserting a request with invalid cell 42 fails with the
validation error and leaves the store untouched. -/
theorem c7_insert_validation_first_witness :
    ∃ d, d ∈ reqBadCell.cells ∧ (fun x => decide (x < 10)) d = false ∧
      insertSubscription (fun x => decide (x < 10)) reqBadCell 5 [subA]
        = (.error (.validation d), [subA]) :=
  c7_insert_validation_first (fun x => decide (x < 10)) reqBadCell 5 [subA]
    42 (by decide) (by decide)

/-- C8: with a non-empty version and valid cells, InsertSubscription inserts
nothing: the store keeps its length, exactly the rows matching the request's
id and stored version are overwritten with the request's owner, url,
notificationIndex, cells and time window, stamped with the fresh version
`now`; with exactly one matching row the written row is returned, and with
none (missing id or stale version) the not-found error is returned and the
store is unchanged. -/
theorem c8_insert_cas_spec (validCell : Int → Bool) (s : SubscriptionReq)
    (now : Int) (db : List Subscription) (v : Int)
    (hver : s.version = some v)
    (hvalid : ∀ c ∈ s.cells, validCell c = true) :
    (insertSubscription validCell s now db).2.length = db.length ∧
    List.Forall₂ (fun r r' =>
        (r.id = s.id ∧ r.updatedAt = v → r' = writtenRow s now) ∧
        (¬(r.id = s.id ∧ r.updatedAt = v) → r' = r))
      db (insertSubscription validCell s now db).2 ∧
    (writtenRow s now).updatedAt = now ∧
    (db.filter (casMatch s.id v) = [] →
      insertSubscription validCell s now db = (.error .noRows, db)) ∧
    (∀ r, db.filter (casMatch s.id v) = [r] →
      (insertSubscription validCell s now db).1 = .ok (writtenRow s now)) := by
  have hnone := firstInvalidCell_none validCell s.cells hvalid
  have heq : insertSubscription validCell s now db
      = (processOne ((db.filter (casMatch s.id v)).map
          (fun _ => writtenRow s now)),
         db.map (fun r => if casMatch s.id v r then writtenRow s now else r)) := by
    simp [insertSubscription, hnone, hver]
  rw [heq]
  refine ⟨List.length_map _ _, ?_, rfl, ?_, ?_⟩
  · rw [List.forall₂_map_right_iff, List.forall₂_same]
    intro r hr
    by_cases h : casMatch s.id v r = true
    · have hp := (casMatch_iff s.id v r).mp h
      rw [if_pos h]
      exact ⟨fun _ => rfl, fun hc => absurd hp hc⟩
    · have hp : ¬(r.id = s.id ∧ r.updatedAt = v) := fun hc =>
        h ((casMatch_iff s.id v r).mpr hc)
      rw [if_neg h]
      exact ⟨fun hc => absurd hc hp, fun _ => rfl⟩
  · intro h
    have h2 : db.map (fun r => if casMatch s.id v r then writtenRow s now
        else r) = db := by
      rw [show db.map (fun r => if casMatch s.id v r then writtenRow s now
          else r) = db.map id from List.map_congr_left (by
        intro a ha
        have h3 := (List.filter_eq_nil_iff.mp h) a ha
        simp_all), List.map_id]
    rw [h, h2]
    rfl
  · intro r h
    rw [h]
    rfl

/-- Fixture: a CAS request carrying subA's id and version, new url and
cells, and caller-supplied notificationIndex 0. -/
def reqCas : SubscriptionReq :=
  { id := "A", owner := "alice", url := "https://a2.example",
    notificationIndex := 0, cells := [7, 8],
    startTime := some 0, endTime := some 20, version := some 1 }

/-- C8 witness: a CAS update matching subA returns the written row and keeps
the store's length at 2. -/
theorem c8_insert_cas_spec_witness :
    (insertSubscription (fun _ => true) reqCas 50 [subA, subB]).1
      = .ok (writtenRow reqCas 50) ∧
    (insertSubscription (fun _ => true) reqCas 50 [subA, subB]).2.length
      = 2 :=
  ⟨(c8_insert_cas_spec (fun _ => true) reqCas 50 [subA, subB] 1 rfl
      (by decide)).2.2.2.2 subA rfl,
   (c8_insert_cas_spec (fun _ => true) reqCas 50 [subA, subB] 1 rfl
      (by decide)).1⟩

/-- Fixture: an insert request (empty version) with caller-supplied
notificationIndex 7. -/
def reqIdx7 : SubscriptionReq :=
  { id := "C", owner := "carol", url := "https://c.example",
    notificationIndex := 7, cells := [1],
    startTime := some 0, endTime := some 10, version := none }

/-- Fixture: a stored row with notificationIndex 5 and version 100. -/
def subIdx5 : Subscription :=
  { id := "D", owner := "dave", url := "https://d.example",
    notificationIndex := 5, cells := [2],
    startTime := some 0, endTime := some 10, updatedAt := 100 }

/-- Fixture: a CAS request against subIdx5 lowering the index to 3. -/
def reqIdx3 : SubscriptionReq :=
  { id := "D", owner := "dave", url := "https://d.example",
    notificationIndex := 3, cells := [2],
    startTime := some 0, endTime := some 10, version := some 100 }

/-- C9 counterexample: the store does not force a created subscription's
notificationIndex to 0 — InsertSubscription persists the caller-supplied
value 7 — and the CAS path of InsertSubscription overwrites a stored index 5
down to 3, so an operation other than the batch advance can change (here
decrease) the counter. -/
theorem c9_counterexample :
    ((insertSubscription (fun _ => true) reqIdx7 100 []).2.map
      (fun r => r.notificationIndex)) = [7] ∧
    ((insertSubscription (fun _ => true) reqIdx3 200 [subIdx5]).2.map
      (fun r => r.notificationIndex)) = [3] ∧
    subIdx5.notificationIndex = 5 ∧ (3 : Int) < 5 :=
  ⟨rfl, rfl, rfl, by decide⟩

/-- C9 amended: a created subscription is persisted with the caller-supplied
notificationIndex (the created-entity convention is 0); the batch advance
adds exactly 1 to each matching active row and leaves every other row
unchanged; the CAS update path overwrites the counter with the
caller-supplied value (so it alone can decrease it); deletion only removes
rows; the stubbed plain update changes nothing; the remaining operations
(get, the searches, the quota query) are pure reads of the store state. -/
theorem c9_amended_notification_index (validCell : Int → Bool)
    (s : SubscriptionReq) (cells : List Int) (now : Int) (v : Int)
    (id owner : String) (db : List Subscription) :
    (s.version = none → firstInvalidCell validCell s.cells = none →
      (insertSubscription validCell s now db).2 = db ++ [writtenRow s now] ∧
      (writtenRow s now).notificationIndex = s.notificationIndex) ∧
    List.Forall₂ (fun r r' =>
        (overlapActive cells now r = true →
          r'.notificationIndex = r.notificationIndex + 1) ∧
        (overlapActive cells now r = false → r' = r))
      db (updateNotificationIdxsInCells cells now db).2 ∧
    (s.version = some v → firstInvalidCell validCell s.cells = none →
      List.Forall₂ (fun r r' =>
          (casMatch s.id v r = true →
            r'.notificationIndex = s.notificationIndex) ∧
          (casMatch s.id v r = false → r' = r))
        db (insertSubscription validCell s now db).2) ∧
    (deleteSubscription id owner v db).2.Sublist db ∧
    (updateSubscription s db).2 = db := by
  refine ⟨?_, ?_, ?_, ?_, rfl⟩
  · intro hver hnone
    constructor
    · simp [insertSubscription, hnone, hver]
    · rfl
  · show List.Forall₂ _ db ((db.map (fun r =>
      if overlapActive cells now r then bumpIndex r else r)))
    rw [List.forall₂_map_right_iff, List.forall₂_same]
    intro r hr
    by_cases h : overlapActive cells now r = true
    · rw [if_pos h]
      exact ⟨fun _ => rfl, fun hc => by rw [h] at hc; cases hc⟩
    · rw [if_neg h]
      have hf : overlapActive cells now r = false := by
        simpa using h
      refine ⟨fun hc => ?_, fun _ => rfl⟩
      rw [hf] at hc
      cases hc
  · intro hver hnone
    have heq : (insertSubscription validCell s now db).2
        = db.map (fun r => if casMatch s.id v r then writtenRow s now
            else r) := by
      simp [insertSubscription, hnone, hver]
    rw [heq, List.forall₂_map_right_iff, List.forall₂_same]
    intro r hr
    by_cases h : casMatch s.id v r = true
    · rw [if_pos h]
      exact ⟨fun _ => rfl, fun hc => by rw [h] at hc; cases hc⟩
    · rw [if_neg h]
      have hf : casMatch s.id v r = false := by
        simpa using h
      refine ⟨fun hc => ?_, fun _ => rfl⟩
      rw [hf] at hc
      cases hc
  · exact List.filter_sublist db

/-- C9 amended witness: inserting the fixture request persists the
caller-supplied index 7. -/
theorem c9_amended_notification_index_witness :
    (insertSubscription (fun _ => true) reqIdx7 100 []).2
      = [] ++ [writtenRow reqIdx7 100] ∧
    (writtenRow reqIdx7 100).notificationIndex
      = reqIdx7.notificationIndex :=
  (c9_amended_notification_index (fun _ => true) reqIdx7 [] 100 0 "x" "y"
    []).1 rfl rfl

lemma foldl_max_le (l : List Nat) (a B : Nat) (ha : a ≤ B)
    (h : ∀ x ∈ l, x ≤ B) : l.foldl max a ≤ B := by
  induction l generalizing a with
  | nil => exact ha
  | cons x xs ih =>
    exact ih (max a x) (max_le ha (h x (List.mem_cons_self x xs)))
      (fun y hy => h y (List.mem_cons_of_mem x hy))

lemma le_foldl_max_init (l : List Nat) (a : Nat) : a ≤ l.foldl max a := by
  induction l generalizing a with
  | nil => exact le_refl a
  | cons x xs ih => exact le_trans (le_max_left a x) (ih (max a x))

lemma le_foldl_max_of_mem (l : List Nat) (a x : Nat) (hx : x ∈ l) :
    x ≤ l.foldl max a := by
  induction l generalizing a with
  | nil => cases hx
  | cons y ys ih =>
    cases List.mem_cons.mp hx with
    | inl h =>
      subst h
      exact le_trans (le_max_right a x) (le_foldl_max_init ys (max a x))
    | inr h => exact ih (max a y) h

lemma count_flatMap_cells (F : List Subscription) (c : Int)
    (h : ∀ r ∈ F, r.cells.Nodup) :
    (F.flatMap (fun r => r.cells)).count c
      = (F.filter (fun r => r.cells.contains c)).length := by
  induction F with
  | nil => rfl
  | cons r rs ih =>
    have hr := h r (List.mem_cons_self r rs)
    have ih' := ih (fun x hx => h x (List.mem_cons_of_mem r hx))
    simp only [List.flatMap_cons, List.count_append, List.filter_cons]
    by_cases hc : c ∈ r.cells
    · rw [List.count_eq_one_of_mem hr hc, if_pos (List.elem_iff.mpr hc),
        List.length_cons, ih']
      omega
    · rw [List.count_eq_zero.mpr hc, if_neg (by
        intro hb
        exact hc (List.elem_iff.mp hb)), ih']
      omega

lemma foldl_max_dedup_count (R : List Int) (cells : List Int)
    (g : Int → Nat) (hsub : ∀ c ∈ R, c ∈ cells)
    (hcount : ∀ c ∈ cells, R.count c = g c) :
    (R.dedup.map (fun c => R.count c)).foldl max 0
      = (cells.map g).foldl max 0 := by
  apply Nat.le_antisymm
  · apply foldl_max_le _ _ _ (Nat.zero_le _)
    intro x hx
    obtain ⟨c, hcd, rfl⟩ := List.mem_map.mp hx
    have hcR : c ∈ R := List.mem_dedup.mp hcd
    have hcc : c ∈ cells := hsub c hcR
    rw [hcount c hcc]
    exact le_foldl_max_of_mem _ _ _ (List.mem_map.mpr ⟨c, hcc, rfl⟩)
  · apply foldl_max_le _ _ _ (Nat.zero_le _)
    intro x hx
    obtain ⟨c, hcc, rfl⟩ := List.mem_map.mp hx
    by_cases hR : c ∈ R
    · have hle := le_foldl_max_of_mem (R.dedup.map (fun c => R.count c)) 0
        (R.count c) (List.mem_map.mpr ⟨c, List.mem_dedup.mpr hR, rfl⟩)
      rw [hcount c hcc] at hle
      exact hle
    · rw [← hcount c hcc, List.count_eq_zero.mpr hR]
      exact Nat.zero_le _

/-- The claim's description of the quota computation: the maximum, over the
queried cells, of the number of the owner's active stored subscriptions
whose cell set contains that cell (0 when the query cell list is empty or
nothing matches). -/
def maxCountSpec (cells : List Int) (owner : String) (now : Int)
    (db : List Subscription) : Nat :=
  (cells.map (fun c =>
    (db.filter (fun r =>
      (r.owner == owner) && activeAt now r && r.cells.contains c)).length)).foldl
    max 0

/-- C4: the quota query computes exactly the claim's description: the
maximum, over the queried cells, of the number of the owner's active stored
subscriptions covering that cell, and 0 when no active subscription of the
owner covers any queried cell.  The stored cell arrays are assumed
duplicate-free (cells are a set; duplicates are not meaningful). -/
theorem c4_max_count_spec (cells : List Int) (owner : String) (now : Int)
    (db : List Subscription) (hnodup : ∀ r ∈ db, r.cells.Nodup) :
    maxSubscriptionCountInCellsByOwner cells owner now db
      = maxCountSpec cells owner now db ∧
    ((∀ c ∈ cells, ∀ r ∈ db, r.owner = owner → activeAt now r = true →
        c ∉ r.cells) →
      maxSubscriptionCountInCellsByOwner cells owner now db = 0) := by
  have hFnodup : ∀ r ∈ db.filter (fun r => (r.owner == owner) && activeAt now r),
      r.cells.Nodup :=
    fun r hr => hnodup r (List.mem_filter.mp hr).1
  have hmain : maxSubscriptionCountInCellsByOwner cells owner now db
      = maxCountSpec cells owner now db := by
    show ((((db.filter (fun r => (r.owner == owner) && activeAt now r)).flatMap
        (fun r => r.cells)).filter (fun c => cells.contains c)).dedup.map
        (fun c => (((db.filter (fun r => (r.owner == owner) && activeAt now r)).flatMap
          (fun r => r.cells)).filter (fun c => cells.contains c)).count c)).foldl
        max 0 = _
    rw [foldl_max_dedup_count _ cells
      (fun c => (db.filter (fun r =>
        (r.owner == owner) && activeAt now r && r.cells.contains c)).length)]
    · rfl
    · intro c hc
      have h2 := (List.mem_filter.mp hc).2
      exact List.elem_iff.mp (by simpa using h2)
    · intro c hc
      rw [List.count_filter (by simpa using List.elem_iff.mpr hc),
        count_flatMap_cells _ c hFnodup, List.filter_filter]
      congr 1
      apply List.filter_congr
      intro r _
      cases h1 : (r.owner == owner) <;> cases h2 : activeAt now r <;>
        cases h3 : r.cells.contains c <;> rfl
  refine ⟨hmain, ?_⟩
  intro hnone
  rw [hmain]
  apply Nat.le_antisymm
  · apply foldl_max_le _ _ _ (le_refl 0)
    intro x hx
    obtain ⟨c, hcc, rfl⟩ := List.mem_map.mp hx
    have hz : db.filter (fun r =>
        (r.owner == owner) && activeAt now r && r.cells.contains c) = [] := by
      apply List.filter_eq_nil_iff.mpr
      intro r hr hb
      simp only [Bool.and_eq_true, beq_iff_eq] at hb
      exact hnone c hcc r hr hb.1.1 hb.1.2 (List.elem_iff.mp hb.2)
    rw [hz]
    exact le_refl 0
  · exact Nat.zero_le _

/-- Fixture rows for the quota witness: oscar has three active subscriptions
covering cell 10 and one covering cell 20. -/
def subO1 : Subscription :=
  { id := "O1", owner := "oscar", url := "https://o.example",
    notificationIndex := 0, cells := [10, 20],
    startTime := some 0, endTime := some 10, updatedAt := 11 }

def subO2 : Subscription :=
  { id := "O2", owner := "oscar", url := "https://o.example",
    notificationIndex := 0, cells := [10],
    startTime := some 0, endTime := some 10, updatedAt := 12 }

def subO3 : Subscription :=
  { id := "O3", owner := "oscar", url := "https://o.example",
    notificationIndex := 0, cells := [10, 30],
    startTime := some 0, endTime := some 10, updatedAt := 13 }

/-- C4 witness: cell 10 is covered by three of oscar's active subscriptions
and cell 20 by one, so the quota query returns 3, as does the claim's
description. -/
theorem c4_max_count_spec_witness :
    maxSubscriptionCountInCellsByOwner [10, 20] "oscar" 0
        [subO1, subO2, subO3, subB]
      = maxCountSpec [10, 20] "oscar" 0 [subO1, subO2, subO3, subB] ∧
    maxSubscriptionCountInCellsByOwner [10, 20] "oscar" 0
        [subO1, subO2, subO3, subB] = 3 :=
  ⟨(c4_max_count_spec [10, 20] "oscar" 0 [subO1, subO2, subO3, subB]
      (by decide)).1,
   by decide⟩
